import Mathlib

/-!
Verification development for the AgDash data-fetch scripts.

The definitions below are a shallow embedding of the Python sources in
`scripts/`:

* `normalizeValue`, `process_county_records` embed the value-normalisation
  and per-county reconciliation logic of
  `fetch_ag_data_enhanced.py::process_county_records`;
* `fetch_metric_rows` embeds the pure row-assembly core of
  `fetch_ag_data_enhanced.py::fetch_metric_multistate`;
* `outerMerge` / `mergeAll` model the `reduce(pd.merge(..., how="outer"))`
  step of `fetch_ag_data_enhanced.py::main` (pandas outer merge, restricted
  to the unique-key-per-table invariant established by the fetcher);
* `merge_dfs` models `fetch_farm_sizes_only.py::merge_dfs`
  (a pandas left merge preceded by dropping duplicated columns);
* `addDerivedCols` embeds the derived-column block of
  `fetch_ag_data.py::main`;
* `geocode_main` / `fetch_main` model the early-abort control flow of
  `geocode_locations.py::main` and `fetch_ag_data_enhanced.py::main`.

Numeric values are modelled exactly: every value string the scripts parse
is a finite decimal literal, represented below as `Dec` (an integer
mantissa over a power of ten), on which parsing and summation are exact.
This idealises IEEE-754 rounding away; none of the verified properties
depends on rounding behaviour.
-/

/-- An exact decimal number `num / 10 ^ pow10`, the model of the
floating-point values the scripts parse and add. -/
structure Dec where
  num : Int
  pow10 : Nat
deriving DecidableEq

/-- Exact addition of decimals (aligning the two powers of ten). -/
def Dec.add (a b : Dec) : Dec :=
  let e := max a.pow10 b.pow10
  ⟨a.num * (10 : Int) ^ (e - a.pow10) + b.num * (10 : Int) ^ (e - b.pow10), e⟩

/-- Python's `sum` over a list of decimals: left fold of addition from zero. -/
def Dec.sumList (l : List Dec) : Dec :=
  l.foldl Dec.add ⟨0, 0⟩

/-- Model of Python's `str.strip()`: drop whitespace from both ends. -/
def pyStrip (s : String) : String :=
  String.mk (((s.toList.dropWhile Char.isWhitespace).reverse.dropWhile
    Char.isWhitespace).reverse)

/-- Model of `str.replace(",", "")`: remove every comma. -/
def removeCommas (s : String) : String :=
  String.mk (s.toList.filter (fun c => c ≠ ','))

/-- Numeric value of a list of decimal digit characters (most significant first). -/
def natVal (cs : List Char) : Nat :=
  cs.foldl (fun a c => a * 10 + (c.toNat - 48)) 0

/-- Exponent suffix of a Python float literal: empty, or `e`/`E`, an optional
sign, and at least one digit; a positive exponent scales the mantissa, a
negative one deepens the power of ten. -/
def parseExpPart (mant : Dec) (cs : List Char) : Option Dec :=
  match cs with
  | [] => some mant
  | c :: rest =>
    if c = 'e' ∨ c = 'E' then
      let p : Bool × List Char :=
        match rest with
        | '+' :: t => (false, t)
        | '-' :: t => (true, t)
        | _ => (false, rest)
      if p.2 ≠ [] ∧ p.2.all Char.isDigit then
        if p.1 then some ⟨mant.num, mant.pow10 + natVal p.2⟩
        else some ⟨mant.num * (10 : Int) ^ natVal p.2, mant.pow10⟩
      else none
    else none

/-- Model of Python's `float(s)` on an already-stripped string, for the
decimal-notation grammar `[+-] digits [. digits] [(e|E) [+-] digits]`
(the forms occurring in the data; special spellings such as `inf`/`nan`
are not modelled). Returns `none` exactly when `float` raises. -/
def parseFloat (s : String) : Option Dec :=
  let cs := s.toList
  let p : Bool × List Char :=
    match cs with
    | '+' :: rest => (false, rest)
    | '-' :: rest => (true, rest)
    | _ => (false, cs)
  let intDs := p.2.takeWhile Char.isDigit
  let cs2 := p.2.dropWhile Char.isDigit
  match cs2 with
  | '.' :: rest =>
    let fracDs := rest.takeWhile Char.isDigit
    let cs3 := rest.dropWhile Char.isDigit
    if intDs = [] ∧ fracDs = [] then none
    else
      let m : Int := (natVal intDs : Int) * (10 : Int) ^ fracDs.length + (natVal fracDs : Int)
      parseExpPart ⟨if p.1 then -m else m, fracDs.length⟩ cs3
  | _ =>
    if intDs = [] then none
    else
      let m : Int := (natVal intDs : Int)
      parseExpPart ⟨if p.1 then -m else m, 0⟩ cs2

/-- Outcome of normalising one raw value string: a parsed number, the
withheld marker (or an empty value), or an unparseable non-marker string. -/
inductive NormValue where
  | num (d : Dec)
  | withheld
  | unparseable
deriving DecidableEq

/-- The Record Normalizer, as inlined in `process_county_records`
(lines 182-207 of `fetch_ag_data_enhanced.py`): strip the value string;
`"(D)"` or an empty string is the withheld case; otherwise remove commas
and attempt a float parse, parse failure being the (non-withheld)
unparseable case. -/
def normalizeValue (s : String) : NormValue :=
  let t := pyStrip s
  if t = "(D)" ∨ t = "" then NormValue.withheld
  else
    match parseFloat (removeCommas t) with
    | some d => NormValue.num d
    | none => NormValue.unparseable

/-- One raw API record, with the fields `process_county_records` and
`fetch_metric_multistate` read from it. -/
structure RawRecord where
  county_name : String
  Value : String
  domaincat_desc : String
  domain_desc : String
deriving DecidableEq

/-- `defaultdict(list)` append: add `v` to the group keyed `d`, creating the
group at the end on first touch (Python dict insertion order). -/
def addToGroup {α : Type} (gs : List (String × List α)) (d : String) (v : α) :
    List (String × List α) :=
  match gs with
  | [] => [(d, [v])]
  | (k, vs) :: rest =>
    if k = d then (k, vs ++ [v]) :: rest else (k, vs) :: addToGroup rest d v

/-- The loop state of `process_county_records`: `total_value`,
`total_is_withheld`, and the `domain_groups` defaultdict (as an
insertion-ordered association list). -/
structure RecState where
  total_value : Option Dec
  total_is_withheld : Bool
  domain_groups : List (String × List Dec)
deriving DecidableEq

/-- One iteration of the record loop of `process_county_records`
(lines 182-207 of `fetch_ag_data_enhanced.py`). -/
def processRecord (st : RecState) (r : RawRecord) : RecState :=
  if r.domaincat_desc = "NOT SPECIFIED" then
    match normalizeValue r.Value with
    | NormValue.withheld => { st with total_is_withheld := true }
    | NormValue.num q => { st with total_value := some q }
    | NormValue.unparseable => st
  else if r.domain_desc = "TOTAL" then st
  else
    match normalizeValue r.Value with
    | NormValue.num q =>
      { st with domain_groups := addToGroup st.domain_groups r.domain_desc q }
    | _ => st

/-- Python's `max(gs, key=len-of-values)` over a nonempty list `g0 :: gs`:
keep the current best, replacing it only on a strictly larger key, so ties
keep the first-encountered group. -/
def maxByLen (gs : List (String × List Dec)) (g0 : String × List Dec) :
    String × List Dec :=
  gs.foldl (fun best g => if g.2.length > best.2.length then g else best) g0

/-- The decision block of `process_county_records` (lines 209-220): use the
actual total when present and not withheld, otherwise sum the largest
domain group, otherwise report no data. -/
def decideCounty (st : RecState) : Option Dec × Bool :=
  match st.total_value, st.total_is_withheld with
  | some v, false => (some v, false)
  | _, _ =>
    match st.domain_groups with
    | [] => (none, false)
    | g :: gs => (some (Dec.sumList (maxByLen gs g).2), true)

/-- `process_county_records` from `fetch_ag_data_enhanced.py` (lines
164-220): fold the record loop over all records of one (metric, county)
pair, then apply the decision block. -/
def process_county_records (records : List RawRecord) : Option Dec × Bool :=
  decideCounty (records.foldl processRecord ⟨none, false, []⟩)

/-- Evolution of the `total_value` component alone under one loop iteration. -/
def tvStep (acc : Option Dec) (r : RawRecord) : Option Dec :=
  if r.domaincat_desc = "NOT SPECIFIED" then
    match normalizeValue r.Value with
    | NormValue.num q => some q
    | _ => acc
  else acc

/-- Evolution of the `total_is_withheld` component alone under one loop iteration. -/
def twStep (b : Bool) (r : RawRecord) : Bool :=
  if r.domaincat_desc = "NOT SPECIFIED" then
    match normalizeValue r.Value with
    | NormValue.withheld => true
    | _ => b
  else b

/-- Evolution of the `domain_groups` component alone under one loop iteration. -/
def dgStep (gs : List (String × List Dec)) (r : RawRecord) :
    List (String × List Dec) :=
  if r.domaincat_desc = "NOT SPECIFIED" then gs
  else if r.domain_desc = "TOTAL" then gs
  else
    match normalizeValue r.Value with
    | NormValue.num q => addToGroup gs r.domain_desc q
    | _ => gs

/-- The `total_value` accumulated over a record list. -/
def totalValue (records : List RawRecord) : Option Dec :=
  records.foldl tvStep none

/-- The `total_is_withheld` flag accumulated over a record list. -/
def totalIsWithheld (records : List RawRecord) : Bool :=
  records.foldl twStep false

/-- The `domain_groups` association list accumulated over a record list. -/
def domainGroups (records : List RawRecord) : List (String × List Dec) :=
  records.foldl dgStep []

/-- Aggregate-total test: does the record carry the sentinel classification
category? -/
def isNS (r : RawRecord) : Bool := r.domaincat_desc = "NOT SPECIFIED"

/-- Sample input: a disclosed aggregate total alongside subcategory records. -/
def sampleDisclosed : List RawRecord :=
  [⟨"BENTON", "1,234", "NOT SPECIFIED", "TOTAL"⟩,
   ⟨"BENTON", "500", "AREA OPERATED: (1.0 TO 9.9 ACRES)", "AREA OPERATED"⟩,
   ⟨"BENTON", "(D)", "AREA OPERATED: (10.0 TO 49.9 ACRES)", "AREA OPERATED"⟩]

/-- Sample input: a withheld aggregate total with two domain groups of
disclosed subcategories, of sizes 2 and 1. -/
def sampleWithheld : List RawRecord :=
  [⟨"BENTON", "(D)", "NOT SPECIFIED", "TOTAL"⟩,
   ⟨"BENTON", "100", "AREA OPERATED: (1.0 TO 9.9 ACRES)", "AREA OPERATED"⟩,
   ⟨"BENTON", "50", "AREA OPERATED: (10.0 TO 49.9 ACRES)", "AREA OPERATED"⟩,
   ⟨"BENTON", "30", "ORGANIZATION: (FAMILY)", "ORGANIZATION"⟩]

/-- Sample input: every value is withheld or unparseable, so nothing is
disclosed anywhere. -/
def sampleNoData : List RawRecord :=
  [⟨"BENTON", "(D)", "NOT SPECIFIED", "TOTAL"⟩,
   ⟨"BENTON", "(D)", "AREA OPERATED: (1.0 TO 9.9 ACRES)", "AREA OPERATED"⟩,
   ⟨"BENTON", "N/A", "ORGANIZATION: (FAMILY)", "ORGANIZATION"⟩]

/-- Sample input: two aggregate-total records, the first withheld and the
second disclosed, plus one disclosed subcategory. -/
def sampleSticky : List RawRecord :=
  [⟨"BENTON", "(D)", "NOT SPECIFIED", "TOTAL"⟩,
   ⟨"BENTON", "100", "NOT SPECIFIED", "TOTAL"⟩,
   ⟨"BENTON", "40", "AREA OPERATED: (1.0 TO 9.9 ACRES)", "AREA OPERATED"⟩]

/-- Association-list lookup by key (the model of row/column selection by a
unique key). -/
def alookup {κ ν : Type} [DecidableEq κ] : List (κ × ν) → κ → Option ν
  | [], _ => none
  | (k, v) :: rest, k2 => if k = k2 then some v else alookup rest k2

/-- The merge key of the Dataset Assembler: (state, county, year). -/
abbrev MergeKey : Type := String × String × Nat

/-- A per-metric table for the merge step: a fixed number of non-key value
columns and one payload list per key. -/
structure PFrame where
  cols : Nat
  rows : List (MergeKey × List (Option Dec))

/-- A frame is wellformed when every row carries exactly `cols` values and
the merge key is unique within the frame — the invariant under which
`outerMerge` models `pd.merge(..., how="outer")`. -/
def framewf (f : PFrame) : Prop :=
  (∀ p ∈ f.rows, p.2.length = f.cols) ∧ (f.rows.map Prod.fst).Nodup

/-- Model of `pd.merge(left, right, on=["state_name", "county_name",
"year"], how="outer")` for unique-keyed frames: left rows extended with the
matching right payload (or nulls), followed by the right-only rows padded
with nulls on the left. -/
def outerMerge (l r : PFrame) : PFrame :=
  ⟨l.cols + r.cols,
    (l.rows.map fun p =>
      (p.1, p.2 ++ ((alookup r.rows p.1).getD (List.replicate r.cols none))))
    ++ ((r.rows.filter fun p => (alookup l.rows p.1).isNone).map fun p =>
      (p.1, List.replicate l.cols none ++ p.2))⟩

/-- `reduce(lambda left, right: pd.merge(..., how="outer"), frames)` from
`fetch_ag_data_enhanced.py::main` (lines 417-422). -/
def mergeAll (f : PFrame) (fs : List PFrame) : PFrame :=
  fs.foldl outerMerge f

/-- A named-column table, for `fetch_farm_sizes_only.py::merge_dfs`: value
columns are stored with their names in each row. -/
structure NFrame where
  cols : List String
  rows : List (MergeKey × List (String × Option Dec))

/-- `DataFrame.drop(columns=[c])`. -/
def dropColN (f : NFrame) (c : String) : NFrame :=
  ⟨f.cols.filter (fun x => x ≠ c),
    f.rows.map (fun p => (p.1, p.2.filter (fun cv => cv.1 ≠ c)))⟩

/-- `merge_dfs` from `fetch_farm_sizes_only.py` (lines 161-168): drop from
the left frame every non-key column that the right frame also carries, then
`pd.merge(left, right, on=["state_name", "county_name", "year"],
how="left")` — left rows are kept (padded with nulls when the right frame
lacks the key) and right-only keys are dropped. -/
def merge_dfs (left right : NFrame) : NFrame :=
  let left2 := right.cols.foldl
    (fun l c => if l.cols.contains c then dropColN l c else l) left
  ⟨left2.cols ++ right.cols,
    left2.rows.map (fun p =>
      (p.1, p.2 ++ ((alookup right.rows p.1).getD
        (right.cols.map (fun c => (c, none))))))⟩

/-- The existing dataset loaded by `fetch_farm_sizes_only.py::main`, with one
Oregon county. -/
def existingFrame : NFrame :=
  ⟨["farms"], [(("OR", "BENTON", 2022), [("farms", some ⟨100, 0⟩)])]⟩

/-- A freshly fetched per-metric frame whose only key is absent from
`existingFrame`. -/
def newMetricFrame : NFrame :=
  ⟨["farms_1_9_acres"],
    [(("WA", "KING", 2022), [("farms_1_9_acres", some ⟨5, 0⟩)])]⟩

/-- The merged wide table of `fetch_ag_data.py::main` after type coercion:
an association list from column name to a column of nullable values. -/
abbrev DFrame : Type := List (String × List (Option Dec))

/-- `Series.fillna(0)`. -/
def fillna0 (col : List (Option Dec)) : List Dec :=
  col.map (fun x => x.getD ⟨0, 0⟩)

/-- Column selection with an all-null default of length `n` (the row count). -/
def getCol (df : DFrame) (c : String) (n : Nat) : List (Option Dec) :=
  (alookup df c).getD (List.replicate n none)

/-- `merged.get(col, pd.Series(0, index=merged.index)).fillna(0)`: the
column's values with nulls (or a missing column) as zero. -/
def colZ (df : DFrame) (c : String) (n : Nat) : List Dec :=
  fillna0 (getCol df c n)

/-- Pointwise addition of two columns. -/
def zipAdd (a b : List Dec) : List Dec :=
  List.zipWith Dec.add a b

/-- Column assignment `merged[c] = v`: replace the column when it exists,
append it otherwise. -/
def setCol (df : DFrame) (c : String) (v : List (Option Dec)) : DFrame :=
  if (alookup df c).isSome then
    df.map (fun p => if p.1 = c then (c, v) else p)
  else df ++ [(c, v)]

/-- `c in merged.columns`. -/
def hasCol (df : DFrame) (c : String) : Bool :=
  (alookup df c).isSome

/-- `grass_seed_cols` from `fetch_ag_data.py::main` (lines 184-191). -/
def grass_seed_cols : List String :=
  ["grass_seed_bentgrass_acres", "grass_seed_bermudagrass_acres",
   "grass_seed_bluegrass_acres", "grass_seed_bromegrass_acres",
   "grass_seed_fescue_acres", "grass_seed_orchardgrass_acres",
   "grass_seed_redtop_acres", "grass_seed_ryegrass_acres",
   "grass_seed_sudangrass_acres", "grass_seed_timothy_acres",
   "grass_seed_wheatgrass_acres"]

/-- The derived-column block of `fetch_ag_data.py::main` (lines 177-198):
`land_in_farms_acres` is the null-safe sum of the two land columns, added
only when BOTH are present; `grass_seed_acres` starts at zero and
accumulates every grass-seed column null-safely (missing columns counting
as zero), added when at least ONE grass-seed column is present. `n` is the
number of rows of the merged table. -/
def addDerivedCols (df : DFrame) (n : Nat) : DFrame :=
  let df1 :=
    if hasCol df "land_owned_acres" && hasCol df "land_rented_acres" then
      setCol df "land_in_farms_acres"
        ((zipAdd (colZ df "land_owned_acres" n)
          (colZ df "land_rented_acres" n)).map some)
    else df
  if grass_seed_cols.any (fun c => hasCol df1 c) then
    setCol df1 "grass_seed_acres"
      ((grass_seed_cols.foldl (fun acc c => zipAdd acc (colZ df1 c n))
        (List.replicate n ⟨0, 0⟩)).map some)
  else df1

/-- A merged table carrying only one of the two land constituents. -/
def dfOnlyOwned : DFrame := [("land_owned_acres", [some ⟨5, 0⟩])]

/-- A merged table with both land constituents and one grass-seed column. -/
def dfBothLand : DFrame :=
  [("land_owned_acres", [some ⟨5, 0⟩, none]),
   ("land_rented_acres", [none, some ⟨3, 0⟩]),
   ("grass_seed_fescue_acres", [some ⟨2, 0⟩, none])]

/-- A merged table with grass-seed constituents but neither land column —
the shape the fetch scripts actually produce, since the two land metrics
are commented out of the METRICS dictionary. -/
def dfGrassOnly : DFrame :=
  [("grass_seed_fescue_acres", [some ⟨2, 0⟩]),
   ("grass_seed_ryegrass_acres", [none])]

/-- Outcome of one script run: the user-facing messages emitted on the
chosen path and the process exit status. -/
structure RunResult where
  messages : List String
  exitCode : Nat
deriving DecidableEq

/-- Model of the input-file check of `geocode_locations.py::main` (lines
66-71): when `locations.csv` is missing the function prints two error lines
and returns, so the process ends normally with exit status 0; `rest` models
the remainder of the run. -/
def geocode_main (inputFileExists : Bool) (rest : RunResult) : RunResult :=
  if inputFileExists then rest
  else
    ⟨["Error: locations.csv not found!",
      "Please place your locations.csv file in the current directory."], 0⟩

/-- Model of the no-data check of `fetch_ag_data_enhanced.py::main` (lines
406-408): when no metric produced any data the function logs a critical
error and returns, so the process ends normally with exit status 0. -/
def fetch_main (noFrames : Bool) (rest : RunResult) : RunResult :=
  if noFrames then
    ⟨["CRITICAL: No data was successfully fetched. Exiting."], 0⟩
  else rest

/-- The county grouping of `fetch_metric_multistate` (lines 263-268 of
`fetch_ag_data_enhanced.py`): records are grouped by `county_name` in
first-appearance order, skipping records with an empty county name. -/
def groupByCounty (records : List RawRecord) : List (String × List RawRecord) :=
  records.foldl
    (fun gs r => if r.county_name = "" then gs else addToGroup gs r.county_name r)
    []

/-- One row of a per-metric table as assembled by `fetch_metric_multistate`. -/
structure CountyRow where
  state_name : String
  county_name : String
  year : Nat
  value : Option Dec
  is_estimated : Bool
deriving DecidableEq

/-- The per-county row constructor of `fetch_metric_multistate` (lines
275-295): a reconciled county yields a row, a county whose reconciliation
is null yields none. -/
def rowOf (st : String) (g : String × List RawRecord) : Option CountyRow :=
  match process_county_records g.2 with
  | (some v, est) => some ⟨st, g.1, 2022, some v, est⟩
  | (none, _) => none

/-- All rows contributed by one state's records. -/
def stateRows (st : String) (records : List RawRecord) : List CountyRow :=
  (groupByCounty records).filterMap (rowOf st)

/-- The pure row-assembly core of `fetch_metric_multistate` (lines 238-295
of `fetch_ag_data_enhanced.py`): per state (in order), group the returned
records by county, reconcile each county, and append a row exactly for the
counties whose reconciled value is non-null. `stateData` holds each state's
successfully retrieved records, states being listed at most once. -/
def fetch_metric_rows (stateData : List (String × List RawRecord)) :
    List CountyRow :=
  stateData.flatMap (fun p => stateRows p.1 p.2)

/-- The (state, county, year) key of an assembled row. -/
def rowKey (row : CountyRow) : String × String × Nat :=
  (row.state_name, row.county_name, row.year)

/-- Sample per-state fetch results: two states; the Oregon county LINN has
only a withheld record and so reconciles to null. -/
def sampleStateData : List (String × List RawRecord) :=
  [("OR",
    [⟨"BENTON", "1,234", "NOT SPECIFIED", "TOTAL"⟩,
     ⟨"LINN", "(D)", "NOT SPECIFIED", "TOTAL"⟩]),
   ("WA", [⟨"KING", "77", "NOT SPECIFIED", "TOTAL"⟩])]

lemma processRecord_components (st : RecState) (r : RawRecord) :
    processRecord st r =
      ⟨tvStep st.total_value r, twStep st.total_is_withheld r,
        dgStep st.domain_groups r⟩ := by
  unfold processRecord tvStep twStep dgStep
  by_cases h1 : r.domaincat_desc = "NOT SPECIFIED"
  · simp only [h1, if_true]
    cases hn : normalizeValue r.Value <;> rfl
  · simp only [h1, if_false]
    by_cases h2 : r.domain_desc = "TOTAL"
    · simp only [h2, if_true]
    · simp only [h2, if_false]
      cases hn : normalizeValue r.Value <;> rfl

lemma foldl_processRecord_components (records : List RawRecord) :
    ∀ st : RecState,
      records.foldl processRecord st =
        ⟨records.foldl tvStep st.total_value,
          records.foldl twStep st.total_is_withheld,
          records.foldl dgStep st.domain_groups⟩ := by
  induction records with
  | nil => intro st; rfl
  | cons r rest ih =>
    intro st
    simp only [List.foldl_cons]
    rw [processRecord_components, ih]

lemma process_county_records_eq (records : List RawRecord) :
    process_county_records records =
      decideCounty ⟨totalValue records, totalIsWithheld records,
        domainGroups records⟩ := by
  unfold process_county_records totalValue totalIsWithheld domainGroups
  rw [foldl_processRecord_components]

lemma foldl_eq_foldl_filter {β : Type} (f : β → RawRecord → β)
    (p : RawRecord → Bool) (hf : ∀ b r, p r = false → f b r = b) :
    ∀ (records : List RawRecord) (b : β),
      records.foldl f b = (records.filter p).foldl f b := by
  intro records
  induction records with
  | nil => intro b; rfl
  | cons r rest ih =>
    intro b
    cases hp : p r with
    | true =>
      simp only [List.foldl_cons, List.filter_cons, hp, if_true, ih]
    | false =>
      simp only [List.foldl_cons, List.filter_cons, hp, Bool.false_eq_true,
        if_false, hf b r hp, ih]

lemma isNS_true_iff (r : RawRecord) :
    isNS r = true ↔ r.domaincat_desc = "NOT SPECIFIED" := by
  simp [isNS]

lemma isNS_false_iff (r : RawRecord) :
    isNS r = false ↔ r.domaincat_desc ≠ "NOT SPECIFIED" := by
  simp [isNS]

lemma tvStep_not_ns (b : Option Dec) (r : RawRecord) (h : isNS r = false) :
    tvStep b r = b := by
  unfold tvStep
  simp [(isNS_false_iff r).mp h]

lemma twStep_not_ns (b : Bool) (r : RawRecord) (h : isNS r = false) :
    twStep b r = b := by
  unfold twStep
  simp [(isNS_false_iff r).mp h]

lemma maxByLen_mem (gs : List (String × List Dec)) :
    ∀ g0, maxByLen gs g0 ∈ g0 :: gs := by
  induction gs with
  | nil => intro g0; simp [maxByLen]
  | cons g rest ih =>
    intro g0
    simp only [maxByLen, List.foldl_cons] at ih ⊢
    by_cases h : g.2.length > g0.2.length
    · rw [if_pos h]
      exact List.mem_cons_of_mem g0 (ih g)
    · rw [if_neg h]
      rcases List.mem_cons.mp (ih g0) with h1 | h1
      · rw [h1]; exact List.mem_cons_self g0 _
      · exact List.mem_cons_of_mem g0 (List.mem_cons_of_mem g h1)

lemma maxByLen_ge (gs : List (String × List Dec)) :
    ∀ g0 g2, g2 ∈ g0 :: gs → g2.2.length ≤ (maxByLen gs g0).2.length := by
  induction gs with
  | nil =>
    intro g0 g2 h
    rcases List.mem_cons.mp h with h1 | h1
    · rw [h1]; exact le_refl _
    · exact absurd h1 (List.not_mem_nil g2)
  | cons g rest ih =>
    intro g0 g2 hmem
    simp only [maxByLen, List.foldl_cons]
    have hg0 : g0.2.length ≤ (if g.2.length > g0.2.length then g else g0).2.length := by
      by_cases h : g.2.length > g0.2.length
      · rw [if_pos h]; exact le_of_lt h
      · rw [if_neg h]
    have hg : g.2.length ≤ (if g.2.length > g0.2.length then g else g0).2.length := by
      by_cases h : g.2.length > g0.2.length
      · rw [if_pos h]
      · rw [if_neg h]; exact le_of_not_lt h
    have hbase := ih (if g.2.length > g0.2.length then g else g0)
    have hself := hbase _ (List.mem_cons_self _ _)
    rcases List.mem_cons.mp hmem with h1 | h1
    · rw [h1]; exact le_trans hg0 hself
    · rcases List.mem_cons.mp h1 with h2 | h2
      · rw [h2]; exact le_trans hg hself
      · exact hbase g2 (List.mem_cons_of_mem _ h2)

/-- C1: when the single aggregate-total record ("NOT SPECIFIED"
classification category) is present with a disclosed, parseable value, the
County Reconciler returns exactly that value with provenance actual
(`is_estimated = false`), regardless of any subcategory records. -/
theorem process_county_records_disclosed_total (records : List RawRecord)
    (r : RawRecord) (q : Dec)
    (h1 : records.filter isNS = [r])
    (h2 : normalizeValue r.Value = NormValue.num q) :
    process_county_records records = (some q, false) := by
  have hrmem : r ∈ records.filter isNS := by
    rw [h1]; exact List.mem_cons_self r []
  have hNS : r.domaincat_desc = "NOT SPECIFIED" :=
    (isNS_true_iff r).mp (List.mem_filter.mp hrmem).2
  have htv : totalValue records = some q := by
    unfold totalValue
    rw [foldl_eq_foldl_filter tvStep isNS tvStep_not_ns, h1]
    simp [tvStep, hNS, h2]
  have htw : totalIsWithheld records = false := by
    unfold totalIsWithheld
    rw [foldl_eq_foldl_filter twStep isNS twStep_not_ns, h1]
    simp [twStep, hNS, h2]
  rw [process_county_records_eq, htv, htw]
  rfl

theorem process_county_records_disclosed_total_witness :
    sampleDisclosed.filter isNS =
        [⟨"BENTON", "1,234", "NOT SPECIFIED", "TOTAL"⟩] ∧
      process_county_records sampleDisclosed = (some ⟨1234, 0⟩, false) :=
  ⟨by decide,
    process_county_records_disclosed_total sampleDisclosed
      ⟨"BENTON", "1,234", "NOT SPECIFIED", "TOTAL"⟩ ⟨1234, 0⟩
      (by decide) (by decide)⟩

/-- C2: when the aggregate total is withheld or absent and some domain group
has disclosed subcategories, the County Reconciler returns the sum of a
single domain group of maximal disclosed-record count, with provenance
reconstructed (`is_estimated = true`); in particular it never sums across
two distinct groups. -/
theorem process_county_records_reconstructs (records : List RawRecord)
    (h1 : totalIsWithheld records = true ∨ records.filter isNS = [])
    (h2 : domainGroups records ≠ []) :
    ∃ g ∈ domainGroups records,
      process_county_records records = (some (Dec.sumList g.2), true) ∧
        ∀ g2 ∈ domainGroups records, g2.2.length ≤ g.2.length := by
  rcases hdg : domainGroups records with _ | ⟨g, gs⟩
  · exact absurd hdg h2
  refine ⟨maxByLen gs g, maxByLen_mem gs g, ?_, ?_⟩
  · rcases h1 with hw | habs
    · rw [process_county_records_eq, hw, hdg]
      cases htv : totalValue records <;> rfl
    · have htv : totalValue records = none := by
        unfold totalValue
        rw [foldl_eq_foldl_filter tvStep isNS tvStep_not_ns, habs]
        rfl
      rw [process_county_records_eq, htv, hdg]
      cases htw : totalIsWithheld records <;> rfl
  · intro g2 hg2
    exact maxByLen_ge gs g g2 hg2

theorem process_county_records_reconstructs_witness :
    (totalIsWithheld sampleWithheld = true ∨ sampleWithheld.filter isNS = []) ∧
      domainGroups sampleWithheld ≠ [] ∧
      ∃ g ∈ domainGroups sampleWithheld,
        process_county_records sampleWithheld = (some (Dec.sumList g.2), true) ∧
          ∀ g2 ∈ domainGroups sampleWithheld, g2.2.length ≤ g.2.length :=
  ⟨Or.inl (by decide), by decide,
    process_county_records_reconstructs sampleWithheld (Or.inl (by decide))
      (by decide)⟩

/-- C3: when no value is disclosed anywhere (no parseable aggregate total
and no disclosed subcategory in any domain group), the County Reconciler
returns a null value and no reconstruction flag: absence, not zero. -/
theorem process_county_records_absent (records : List RawRecord)
    (h1 : totalValue records = none) (h2 : domainGroups records = []) :
    process_county_records records = (none, false) := by
  rw [process_county_records_eq, h1, h2]
  cases htw : totalIsWithheld records <;> rfl

theorem process_county_records_absent_witness :
    totalValue sampleNoData = none ∧ domainGroups sampleNoData = [] ∧
      process_county_records sampleNoData = (none, false) :=
  ⟨by decide, by decide,
    process_county_records_absent sampleNoData (by decide) (by decide)⟩

lemma mem_addToGroup_keys {α : Type} (d : String) (v : α) :
    ∀ (gs : List (String × List α)) (k : String),
      k ∈ (addToGroup gs d v).map Prod.fst → k = d ∨ k ∈ gs.map Prod.fst := by
  intro gs
  induction gs with
  | nil =>
    intro k hk
    simp [addToGroup] at hk
    exact Or.inl hk
  | cons g rest ih =>
    intro k hk
    by_cases h : g.1 = d
    · unfold addToGroup at hk
      rw [if_pos h] at hk
      simp only [List.map_cons, List.mem_cons] at hk
      rcases hk with hk | hk
      · exact Or.inr (by simp [hk])
      · exact Or.inr (by simp [hk])
    · unfold addToGroup at hk
      rw [if_neg h] at hk
      simp only [List.map_cons, List.mem_cons] at hk
      rcases hk with hk | hk
      · exact Or.inr (by simp [hk])
      · rcases ih k hk with hk2 | hk2
        · exact Or.inl hk2
        · exact Or.inr (by simp [hk2])

lemma foldl_dgStep_keys (records : List RawRecord) :
    ∀ gs : List (String × List Dec), (∀ g ∈ gs, g.1 ≠ "TOTAL") →
      ∀ g ∈ records.foldl dgStep gs, g.1 ≠ "TOTAL" := by
  induction records with
  | nil => intro gs hgs; exact hgs
  | cons r rest ih =>
    intro gs hgs
    simp only [List.foldl_cons]
    apply ih
    intro g hg
    unfold dgStep at hg
    by_cases h1 : r.domaincat_desc = "NOT SPECIFIED"
    · rw [if_pos h1] at hg; exact hgs g hg
    · rw [if_neg h1] at hg
      by_cases h2 : r.domain_desc = "TOTAL"
      · rw [if_pos h2] at hg; exact hgs g hg
      · rw [if_neg h2] at hg
        cases hn : normalizeValue r.Value with
        | num q =>
          rw [hn] at hg
          have := mem_addToGroup_keys r.domain_desc q gs g.1
            (List.mem_map.mpr ⟨g, hg, rfl⟩)
          rcases this with h3 | h3
          · rw [h3]; exact h2
          · rcases List.mem_map.mp h3 with ⟨g0, hg0, hk⟩
            rw [← hk]; exact hgs g0 hg0
        | withheld => rw [hn] at hg; exact hgs g hg
        | unparseable => rw [hn] at hg; exact hgs g hg

/-- The record-keeping predicate of C4: a record is excluded exactly when
its classification-domain label is the synthetic "TOTAL" domain and it is
not the aggregate-total record. -/
def keepRecord (r : RawRecord) : Bool :=
  !((r.domain_desc = "TOTAL" : Bool) && !(isNS r))

lemma processRecord_excluded (st : RecState) (r : RawRecord)
    (h : keepRecord r = false) : processRecord st r = st := by
  unfold keepRecord at h
  simp only [Bool.not_eq_false', Bool.and_eq_true, Bool.not_eq_true',
    decide_eq_true_eq] at h
  unfold processRecord
  rw [if_neg ((isNS_false_iff r).mp h.2), if_pos h.1]

/-- C4: records whose classification-domain label is "TOTAL" (and which are
not the aggregate-total record) never contribute: no domain group is keyed
"TOTAL", and removing all such records leaves the County Reconciler's
result unchanged. -/
theorem process_county_records_total_domain_excluded
    (records : List RawRecord) :
    (∀ g ∈ domainGroups records, g.1 ≠ "TOTAL") ∧
      process_county_records records =
        process_county_records (records.filter keepRecord) := by
  constructor
  · exact foldl_dgStep_keys records [] (by intro g hg; cases hg)
  · unfold process_county_records
    rw [foldl_eq_foldl_filter processRecord keepRecord processRecord_excluded]

/-- C5: the Record Normalizer trims whitespace and removes
thousands-separator commas; `" (D) "` and the empty string are withheld
no-values, an unparseable non-marker string such as `"N/A"` is a
non-withheld no-value, `"1,234"` (with or without surrounding whitespace)
parses to the number 1234, and the withheld and unparseable outcomes are
distinct. -/
theorem normalizeValue_cases :
    normalizeValue " (D) " = NormValue.withheld ∧
      normalizeValue "" = NormValue.withheld ∧
      normalizeValue "N/A" = NormValue.unparseable ∧
      normalizeValue "1,234" = NormValue.num ⟨1234, 0⟩ ∧
      normalizeValue "  1,234  " = NormValue.num ⟨1234, 0⟩ ∧
      NormValue.withheld ≠ NormValue.unparseable := by
  decide

/-- C9: the withheld flag for the aggregate total is sticky: as soon as any
aggregate-total record is withheld or empty, the reconciler never returns a
disclosed total (even if another aggregate-total record carries one); it
reconstructs from subcategories or returns null. -/
theorem process_county_records_withheld_sticky (records : List RawRecord)
    (h : totalIsWithheld records = true) :
    process_county_records records =
      match domainGroups records with
      | [] => (none, false)
      | g :: gs => (some (Dec.sumList (maxByLen gs g).2), true) := by
  rw [process_county_records_eq, h]
  cases htv : totalValue records <;> cases hdg : domainGroups records <;> rfl

theorem process_county_records_withheld_sticky_witness :
    totalIsWithheld sampleSticky = true ∧
      totalValue sampleSticky = some ⟨100, 0⟩ ∧
      process_county_records sampleSticky = (some ⟨40, 0⟩, true) :=
  ⟨by decide, by decide, by
    rw [process_county_records_withheld_sticky sampleSticky (by decide)]
    decide⟩

lemma alookup_append {κ ν : Type} [DecidableEq κ] (l1 l2 : List (κ × ν)) (k : κ) :
    alookup (l1 ++ l2) k =
      match alookup l1 k with
      | some v => some v
      | none => alookup l2 k := by
  induction l1 with
  | nil => rfl
  | cons p rest ih =>
    rcases p with ⟨k0, v0⟩
    by_cases h : k0 = k
    · simp [alookup, h]
    · simp [alookup, h, ih]

lemma alookup_map_entry {κ ν ν2 : Type} [DecidableEq κ] (f : κ → ν → ν2)
    (l : List (κ × ν)) (k : κ) :
    alookup (l.map fun p => (p.1, f p.1 p.2)) k = (alookup l k).map (f k) := by
  induction l with
  | nil => rfl
  | cons p rest ih =>
    rcases p with ⟨k0, v0⟩
    by_cases h : k0 = k
    · subst h; simp [alookup]
    · simp [alookup, h, ih]

lemma alookup_filter_key {κ ν : Type} [DecidableEq κ] (q : κ → Bool)
    (l : List (κ × ν)) (k : κ) :
    alookup (l.filter fun p => q p.1) k = if q k then alookup l k else none := by
  induction l with
  | nil => simp [alookup]
  | cons p rest ih =>
    rcases p with ⟨k0, v0⟩
    by_cases h : k0 = k
    · subst h
      cases hq : q k0 with
      | true => simp [alookup, hq, List.filter_cons]
      | false => simp [alookup, hq, List.filter_cons, ih]
    · cases hq : q k0 with
      | true => simp [alookup, hq, h, List.filter_cons, ih]
      | false => simp [alookup, hq, h, List.filter_cons, ih]

lemma alookup_outerMerge (l r : PFrame) (k : MergeKey) :
    alookup (outerMerge l r).rows k =
      match alookup l.rows k with
      | some vs =>
        some (vs ++ ((alookup r.rows k).getD (List.replicate r.cols none)))
      | none =>
        (alookup r.rows k).map (fun ws => List.replicate l.cols none ++ ws) := by
  unfold outerMerge
  rw [alookup_append]
  rw [alookup_map_entry (fun k2 vs => vs ++ ((alookup r.rows k2).getD (List.replicate r.cols none)))]
  cases hl : alookup l.rows k with
  | some vs => simp
  | none =>
    simp only [Option.map_none]
    rw [alookup_map_entry (fun k2 ws => List.replicate l.cols none ++ ws)]
    rw [alookup_filter_key (fun k2 => (alookup l.rows k2).isNone)]
    simp [hl]

lemma mergeAll_lookup_aux (fs : List PFrame) :
    ∀ (f : PFrame) (k : MergeKey),
      alookup (mergeAll f fs).rows k =
        if (f :: fs).any (fun t => (alookup t.rows k).isSome) then
          some (((f :: fs).map
            (fun t => (alookup t.rows k).getD (List.replicate t.cols none))).flatten)
        else none := by
  induction fs with
  | nil =>
    intro f k
    cases h : alookup f.rows k with
    | none => simp [mergeAll, h]
    | some vs => simp [mergeAll, h]
  | cons g rest ih =>
    intro f k
    have hm : mergeAll f (g :: rest) = mergeAll (outerMerge f g) rest := rfl
    rw [hm, ih (outerMerge f g) k]
    have hbin := alookup_outerMerge f g k
    have hcols : (outerMerge f g).cols = f.cols + g.cols := rfl
    cases hf : alookup f.rows k with
    | some vs =>
      cases hg : alookup g.rows k with
      | some ws =>
        rw [hf, hg] at hbin
        simp [hbin, hf, hg, List.append_assoc]
      | none =>
        rw [hf, hg] at hbin
        simp [hbin, hf, hg, List.append_assoc]
    | none =>
      cases hg : alookup g.rows k with
      | some ws =>
        rw [hf, hg] at hbin
        simp [hbin, hf, hg, List.append_assoc]
      | none =>
        have hb : alookup (outerMerge f g).rows k = none := by
          rw [alookup_outerMerge, hf, hg]; rfl
        rw [List.any_cons, List.any_cons, List.any_cons, hb, hf, hg]
        simp only [Option.isSome_none, Bool.false_or]
        cases hrest : rest.any (fun t => (alookup t.rows k).isSome) with
        | false => rfl
        | true =>
          simp only [if_true]
          congr 1
          simp only [List.map_cons, List.flatten_cons, hb, hf, hg,
            Option.getD_none, hcols, List.replicate_add, List.append_assoc]

instance framewfDecidable (f : PFrame) : Decidable (framewf f) :=
  inferInstanceAs (Decidable (_ ∧ _))

/-- C6 (amended): the Dataset Assembler of the main fetch scripts merges the
per-metric tables with a full outer join on (state, county, year): for
wellformed (unique-keyed) frames, every key present in at least one
contributing table appears in the merged table, its row carrying each
table's payload where present and nulls for the tables that lack the key,
and no other key appears. (The incremental farm-size updater instead
left-joins onto the existing dataset, so there a key present only in a new
metric table is dropped — see the counterexample.) -/
theorem mergeAll_outer_lookup (f : PFrame) (fs : List PFrame) (k : MergeKey)
    (_hwf : ∀ t ∈ f :: fs, framewf t) :
    alookup (mergeAll f fs).rows k =
      if (f :: fs).any (fun t => (alookup t.rows k).isSome) then
        some (((f :: fs).map
          (fun t => (alookup t.rows k).getD (List.replicate t.cols none))).flatten)
      else none :=
  mergeAll_lookup_aux fs f k

/-- Two wellformed single-row frames over disjoint keys. -/
def pfOregon : PFrame := ⟨1, [(("OR", "BENTON", 2022), [some ⟨7, 0⟩])]⟩

/-- Second sample frame for the outer-merge witness. -/
def pfWashington : PFrame := ⟨2, [(("WA", "KING", 2022), [some ⟨3, 0⟩, none])]⟩

theorem mergeAll_outer_lookup_witness :
    (∀ t ∈ pfOregon :: [pfWashington], framewf t) ∧
      alookup (mergeAll pfOregon [pfWashington]).rows ("WA", "KING", 2022) =
        some [none, some ⟨3, 0⟩, none] :=
  ⟨by decide, by
    rw [mergeAll_outer_lookup pfOregon [pfWashington] ("WA", "KING", 2022)
      (by decide)]
    decide⟩

theorem merge_dfs_drops_right_only_key :
    (alookup newMetricFrame.rows ("WA", "KING", 2022)).isSome = true ∧
      alookup (merge_dfs existingFrame newMetricFrame).rows
        ("WA", "KING", 2022) = none := by
  decide

lemma alookup_map_set (df : DFrame) (c : String) (v : List (Option Dec)) :
    alookup (df.map (fun p => if p.1 = c then (c, v) else p)) c =
      if (alookup df c).isSome then some v else none := by
  induction df with
  | nil => simp [alookup]
  | cons p rest ih =>
    rcases p with ⟨k0, w⟩
    simp only [List.map_cons]
    by_cases h : k0 = c
    · subst h
      rw [show (if (k0, w).1 = k0 then (k0, v) else (k0, w)) = (k0, v) from
        if_pos rfl]
      simp [alookup]
    · rw [show (if (k0, w).1 = c then (c, v) else (k0, w)) = (k0, w) from
        if_neg h]
      simp [alookup, h, ih]

lemma alookup_map_set_ne (df : DFrame) (c : String) (v : List (Option Dec))
    (c2 : String) (h : c2 ≠ c) :
    alookup (df.map (fun p => if p.1 = c then (c, v) else p)) c2 =
      alookup df c2 := by
  induction df with
  | nil => rfl
  | cons p rest ih =>
    rcases p with ⟨k0, w⟩
    simp only [List.map_cons]
    by_cases hk : k0 = c
    · subst hk
      rw [show (if (k0, w).1 = k0 then (k0, v) else (k0, w)) = (k0, v) from
        if_pos rfl]
      simp [alookup, Ne.symm h, ih]
    · rw [show (if (k0, w).1 = c then (c, v) else (k0, w)) = (k0, w) from
        if_neg hk]
      by_cases hk2 : k0 = c2
      · subst hk2
        simp [alookup, hk]
      · simp [alookup, hk, hk2, ih]

lemma alookup_setCol_self (df : DFrame) (c : String) (v : List (Option Dec)) :
    alookup (setCol df c v) c = some v := by
  unfold setCol
  cases hs : alookup df c with
  | some w =>
    rw [if_pos (show (some w).isSome = true from rfl), alookup_map_set, hs]
    rfl
  | none =>
    rw [if_neg
        (show ¬(none : Option (List (Option Dec))).isSome = true from by simp),
      alookup_append, hs]
    simp [alookup]

lemma alookup_setCol_ne (df : DFrame) (c : String) (v : List (Option Dec))
    (c2 : String) (h : c2 ≠ c) :
    alookup (setCol df c v) c2 = alookup df c2 := by
  unfold setCol
  cases hs : alookup df c with
  | some w =>
    rw [if_pos (show (some w).isSome = true from rfl)]
    exact alookup_map_set_ne df c v c2 h
  | none =>
    rw [if_neg
        (show ¬(none : Option (List (Option Dec))).isSome = true from by simp),
      alookup_append]
    cases hl : alookup df c2 with
    | some u => rfl
    | none => simp [alookup, Ne.symm h]

lemma hasCol_setCol_ne (df : DFrame) (c : String) (v : List (Option Dec))
    (c2 : String) (h : c2 ≠ c) :
    hasCol (setCol df c v) c2 = hasCol df c2 := by
  unfold hasCol
  rw [alookup_setCol_ne df c v c2 h]

lemma colZ_setCol_ne (df : DFrame) (c : String) (v : List (Option Dec))
    (c2 : String) (n : Nat) (h : c2 ≠ c) :
    colZ (setCol df c v) c2 n = colZ df c2 n := by
  unfold colZ getCol
  rw [alookup_setCol_ne df c v c2 h]

lemma list_any_congr {α : Type} (l : List α) (p q : α → Bool)
    (h : ∀ a ∈ l, p a = q a) : l.any p = l.any q := by
  induction l with
  | nil => rfl
  | cons a rest ih =>
    simp only [List.any_cons]
    rw [h a (List.mem_cons_self a rest),
      ih (fun b hb => h b (List.mem_cons_of_mem a hb))]

lemma list_foldl_congr {α β : Type} (l : List α) (f g : β → α → β) :
    (∀ acc a, a ∈ l → f acc a = g acc a) →
      ∀ b : β, l.foldl f b = l.foldl g b := by
  induction l with
  | nil => intro h b; rfl
  | cons a rest ih =>
    intro h b
    simp only [List.foldl_cons]
    rw [h b a (List.mem_cons_self a rest)]
    exact ih (fun acc x hx => h acc x (List.mem_cons_of_mem a hx)) _

/-- C7 (amended): each derived aggregate column is a null-safe sum of its
constituents with missing or null components treated as zero, but the two
columns are gated differently: `grass_seed_acres` is computed whenever at
least one grass-seed constituent is present, independently of any other
column; `land_in_farms_acres` is computed only when BOTH land constituents
are present, and is otherwise left exactly as in the input table (in
particular, absent when it was absent). -/
theorem addDerivedCols_spec (df : DFrame) (n : Nat) :
    (grass_seed_cols.any (fun c => hasCol df c) = true →
      alookup (addDerivedCols df n) "grass_seed_acres" =
        some ((grass_seed_cols.foldl (fun acc c => zipAdd acc (colZ df c n))
          (List.replicate n ⟨0, 0⟩)).map some)) ∧
      (hasCol df "land_owned_acres" = true →
        hasCol df "land_rented_acres" = true →
        alookup (addDerivedCols df n) "land_in_farms_acres" =
          some ((zipAdd (colZ df "land_owned_acres" n)
            (colZ df "land_rented_acres" n)).map some)) ∧
      ((hasCol df "land_owned_acres" && hasCol df "land_rented_acres") = false →
        alookup (addDerivedCols df n) "land_in_farms_acres" =
          alookup df "land_in_farms_acres") := by
  have hgrassne : ∀ c ∈ grass_seed_cols, c ≠ "land_in_farms_acres" := by decide
  refine ⟨?_, ?_, ?_⟩
  · intro h3
    unfold addDerivedCols
    by_cases hland :
      (hasCol df "land_owned_acres" && hasCol df "land_rented_acres") = true
    · simp only [if_pos hland]
      have hany :
          (grass_seed_cols.any fun c =>
              hasCol (setCol df "land_in_farms_acres"
                ((zipAdd (colZ df "land_owned_acres" n)
                  (colZ df "land_rented_acres" n)).map some)) c) = true := by
        rw [list_any_congr _ _ (fun c => hasCol df c)
          (fun c hc => hasCol_setCol_ne df _ _ c (hgrassne c hc))]
        exact h3
      rw [if_pos hany, alookup_setCol_self]
      have hfold :
          (grass_seed_cols.foldl
              (fun acc c => zipAdd acc (colZ (setCol df "land_in_farms_acres"
                ((zipAdd (colZ df "land_owned_acres" n)
                  (colZ df "land_rented_acres" n)).map some)) c n))
              (List.replicate n ⟨0, 0⟩)) =
            grass_seed_cols.foldl (fun acc c => zipAdd acc (colZ df c n))
              (List.replicate n ⟨0, 0⟩) := by
        apply list_foldl_congr
        intro acc c hc
        rw [colZ_setCol_ne df _ _ c n (hgrassne c hc)]
      rw [hfold]
    · simp only [if_neg hland]
      rw [if_pos h3, alookup_setCol_self]
  · intro h1 h2
    unfold addDerivedCols
    have hland :
        (hasCol df "land_owned_acres" && hasCol df "land_rented_acres") =
          true := by
      rw [h1, h2]
      rfl
    simp only [if_pos hland]
    by_cases hg :
      (grass_seed_cols.any fun c =>
          hasCol (setCol df "land_in_farms_acres"
            ((zipAdd (colZ df "land_owned_acres" n)
              (colZ df "land_rented_acres" n)).map some)) c) = true
    · rw [if_pos hg,
        alookup_setCol_ne _ "grass_seed_acres" _ "land_in_farms_acres"
          (by decide),
        alookup_setCol_self]
    · rw [if_neg hg, alookup_setCol_self]
  · intro hland
    unfold addDerivedCols
    have hln :
        ¬(hasCol df "land_owned_acres" && hasCol df "land_rented_acres") =
          true := by
      rw [hland]
      exact Bool.false_ne_true
    simp only [if_neg hln]
    by_cases hg : (grass_seed_cols.any fun c => hasCol df c) = true
    · rw [if_pos hg,
        alookup_setCol_ne _ "grass_seed_acres" _ "land_in_farms_acres"
          (by decide)]
    · rw [if_neg hg]

theorem addDerivedCols_spec_witness :
    ((grass_seed_cols.any fun c => hasCol dfGrassOnly c) = true ∧
      (hasCol dfGrassOnly "land_owned_acres" &&
        hasCol dfGrassOnly "land_rented_acres") = false ∧
      alookup (addDerivedCols dfGrassOnly 1) "grass_seed_acres" =
        some ((grass_seed_cols.foldl
          (fun acc c => zipAdd acc (colZ dfGrassOnly c 1))
          (List.replicate 1 ⟨0, 0⟩)).map some) ∧
      alookup (addDerivedCols dfGrassOnly 1) "land_in_farms_acres" = none) ∧
      (hasCol dfBothLand "land_owned_acres" = true ∧
        hasCol dfBothLand "land_rented_acres" = true ∧
        alookup (addDerivedCols dfBothLand 2) "land_in_farms_acres" =
          some ((zipAdd (colZ dfBothLand "land_owned_acres" 2)
            (colZ dfBothLand "land_rented_acres" 2)).map some)) :=
  ⟨⟨by decide, by decide,
    (addDerivedCols_spec dfGrassOnly 1).1 (by decide), by
      rw [(addDerivedCols_spec dfGrassOnly 1).2.2 (by decide)]
      decide⟩,
    by decide, by decide,
    (addDerivedCols_spec dfBothLand 2).2.1 (by decide) (by decide)⟩

theorem addDerivedCols_requires_both_land_cols :
    hasCol dfOnlyOwned "land_owned_acres" = true ∧
      alookup (addDerivedCols dfOnlyOwned 1) "land_in_farms_acres" = none := by
  decide

/-- C8 (amended): when the geocoding utility's required input file is
missing, or zero metrics produce any data across the fetch run, the run
aborts early with a clear user-facing message — but in both cases `main`
returns normally, so the process exit status is 0, not non-zero. -/
theorem fatal_conditions_abort_with_message (rest : RunResult) :
    geocode_main false rest =
        ⟨["Error: locations.csv not found!",
          "Please place your locations.csv file in the current directory."],
          0⟩ ∧
      fetch_main true rest =
        ⟨["CRITICAL: No data was successfully fetched. Exiting."], 0⟩ :=
  ⟨rfl, rfl⟩

theorem fatal_conditions_exit_zero :
    (geocode_main false ⟨[], 7⟩).exitCode = 0 ∧
      (fetch_main true ⟨[], 7⟩).exitCode = 0 := by
  decide

lemma rowOf_some {st : String} {g : String × List RawRecord} {row : CountyRow}
    (h : rowOf st g = some row) :
    row.state_name = st ∧ row.county_name = g.1 ∧ row.year = 2022 ∧
      ∃ v, (process_county_records g.2).1 = some v ∧ row.value = some v := by
  unfold rowOf at h
  rcases hp : process_county_records g.2 with ⟨ov, est⟩
  rw [hp] at h
  cases ov with
  | none => exact absurd h (by simp)
  | some v =>
    simp only [Option.some_inj] at h
    rw [← h]
    exact ⟨rfl, rfl, rfl, v, rfl, rfl⟩

lemma mem_filterMap_rowOf {st : String} {l : List (String × List RawRecord)}
    {row : CountyRow} (h : row ∈ l.filterMap (rowOf st)) :
    row.state_name = st ∧ row.year = 2022 ∧
      ∃ g ∈ l, g.1 = row.county_name ∧
        ∃ v, (process_county_records g.2).1 = some v ∧ row.value = some v := by
  rcases List.mem_filterMap.mp h with ⟨g, hg, hsome⟩
  rcases rowOf_some hsome with ⟨h1, h2, h3, v, h4, h5⟩
  exact ⟨h1, h3, g, hg, h2.symm, v, h4, h5⟩

lemma addToGroup_keys {α : Type} (d : String) (v : α) :
    ∀ gs : List (String × List α),
      (addToGroup gs d v).map Prod.fst =
        if d ∈ gs.map Prod.fst then gs.map Prod.fst
        else gs.map Prod.fst ++ [d] := by
  intro gs
  induction gs with
  | nil => simp [addToGroup]
  | cons g rest ih =>
    rcases g with ⟨k0, vs⟩
    by_cases h : k0 = d
    · subst h
      unfold addToGroup
      rw [if_pos rfl]
      simp
    · unfold addToGroup
      rw [if_neg h]
      simp only [List.map_cons, ih, List.mem_cons]
      by_cases hd : d ∈ rest.map Prod.fst
      · rw [if_pos hd, if_pos (Or.inr hd)]
      · have hne : ¬(d = k0 ∨ d ∈ rest.map Prod.fst) := by
          rintro (h1 | h2)
          · exact h h1.symm
          · exact hd h2
        rw [if_neg hd, if_neg hne]
        simp

lemma addToGroup_keys_nodup {α : Type} (d : String) (v : α)
    (gs : List (String × List α)) (h : (gs.map Prod.fst).Nodup) :
    ((addToGroup gs d v).map Prod.fst).Nodup := by
  rw [addToGroup_keys]
  by_cases hd : d ∈ gs.map Prod.fst
  · rw [if_pos hd]; exact h
  · rw [if_neg hd, List.nodup_append]
    refine ⟨h, List.nodup_singleton d, ?_⟩
    intro a ha hb
    rw [List.mem_singleton.mp hb] at ha
    exact hd ha

lemma groupByCounty_keys_nodup (records : List RawRecord) :
    ((groupByCounty records).map Prod.fst).Nodup := by
  unfold groupByCounty
  suffices hgen : ∀ gs : List (String × List RawRecord),
      (gs.map Prod.fst).Nodup →
      ((records.foldl (fun gs r =>
        if r.county_name = "" then gs else addToGroup gs r.county_name r)
        gs).map Prod.fst).Nodup by
    exact hgen [] (by simp)
  induction records with
  | nil => intro gs h; exact h
  | cons r rest ih =>
    intro gs h
    simp only [List.foldl_cons]
    by_cases hc : r.county_name = ""
    · rw [if_pos hc]; exact ih gs h
    · rw [if_neg hc]; exact ih _ (addToGroup_keys_nodup r.county_name r gs h)

lemma assoc_mem_unique {α : Type} :
    ∀ {l : List (String × α)}, (l.map Prod.fst).Nodup →
      ∀ {k : String} {v1 v2 : α}, (k, v1) ∈ l → (k, v2) ∈ l → v1 = v2 := by
  intro l
  induction l with
  | nil => intro _ k v1 v2 h1 _; exact absurd h1 (List.not_mem_nil _)
  | cons p rest ih =>
    intro hnd k v1 v2 h1 h2
    simp only [List.map_cons, List.nodup_cons] at hnd
    rcases List.mem_cons.mp h1 with he1 | hm1
    · rcases List.mem_cons.mp h2 with he2 | hm2
      · exact congrArg Prod.snd (he1.trans he2.symm)
      · exact absurd
          (show p.1 ∈ rest.map Prod.fst from
            he1 ▸ List.mem_map.mpr ⟨(k, v2), hm2, rfl⟩)
          hnd.1
    · rcases List.mem_cons.mp h2 with he2 | hm2
      · exact absurd
          (show p.1 ∈ rest.map Prod.fst from
            he2 ▸ List.mem_map.mpr ⟨(k, v1), hm1, rfl⟩)
          hnd.1
      · exact ih hnd.2 hm1 hm2

lemma filterMap_rowOf_keys_nodup (st : String) :
    ∀ l : List (String × List RawRecord), (l.map Prod.fst).Nodup →
      ((l.filterMap (rowOf st)).map rowKey).Nodup := by
  intro l
  induction l with
  | nil => intro _; simp
  | cons g rest ih =>
    intro hnd
    simp only [List.map_cons, List.nodup_cons] at hnd
    rw [List.filterMap_cons]
    cases hr : rowOf st g with
    | none => exact ih hnd.2
    | some row =>
      simp only [List.map_cons, List.nodup_cons]
      refine ⟨?_, ih hnd.2⟩
      intro hmem
      rcases List.mem_map.mp hmem with ⟨row2, hrow2, hkey⟩
      rcases mem_filterMap_rowOf hrow2 with ⟨_, _, g2, hg2, hg2c, _⟩
      rcases rowOf_some hr with ⟨_, hrc, _⟩
      have hcounty : row2.county_name = row.county_name :=
        congrArg (fun k => k.2.1) hkey
      exact hnd.1 (List.mem_map.mpr ⟨g2, hg2, by rw [hg2c, hcounty, ← hrc]⟩)

lemma mem_stateRows {st : String} {records : List RawRecord} {row : CountyRow}
    (h : row ∈ stateRows st records) :
    row.state_name = st ∧ row.year = 2022 ∧
      ∃ g ∈ groupByCounty records, g.1 = row.county_name ∧
        ∃ v, (process_county_records g.2).1 = some v ∧ row.value = some v :=
  mem_filterMap_rowOf h

lemma stateRows_keys_nodup (st : String) (records : List RawRecord) :
    ((stateRows st records).map rowKey).Nodup :=
  filterMap_rowOf_keys_nodup st (groupByCounty records)
    (groupByCounty_keys_nodup records)

/-- C10: every per-metric table assembled by the Metric Fetcher contains
only rows with a present (non-null) value — counties whose reconciliation
yields null are omitted entirely — and the (state, county, year) key is
unique across the table. -/
theorem fetch_metric_rows_invariants
    (stateData : List (String × List RawRecord))
    (h : (stateData.map Prod.fst).Nodup) :
    (∀ row ∈ fetch_metric_rows stateData, row.value ≠ none) ∧
      ((fetch_metric_rows stateData).map rowKey).Nodup ∧
      ∀ st records, (st, records) ∈ stateData →
        ∀ cty data, (cty, data) ∈ groupByCounty records →
          (process_county_records data).1 = none →
          ∀ row ∈ fetch_metric_rows stateData,
            ¬(row.state_name = st ∧ row.county_name = cty) := by
  refine ⟨?_, ?_, ?_⟩
  · intro row hrow
    rcases List.mem_flatMap.mp hrow with ⟨p, hp, hrowp⟩
    rcases mem_stateRows hrowp with ⟨_, _, _, _, _, v, _, hv⟩
    rw [hv]
    simp
  · rw [show fetch_metric_rows stateData =
      stateData.flatMap (fun p => stateRows p.1 p.2) from rfl]
    rw [List.map_flatMap, List.nodup_flatMap]
    constructor
    · intro p _
      exact stateRows_keys_nodup p.1 p.2
    · have hpw : stateData.Pairwise (fun a b => a.1 ≠ b.1) :=
        List.pairwise_map.mp h
      apply hpw.imp
      intro a b hab x hxa hxb
      rcases List.mem_map.mp hxa with ⟨rowa, hrowa, hka⟩
      rcases List.mem_map.mp hxb with ⟨rowb, hrowb, hkb⟩
      have h1 : rowa.state_name = a.1 := (mem_stateRows hrowa).1
      have h2 : rowb.state_name = b.1 := (mem_stateRows hrowb).1
      apply hab
      have hst : rowa.state_name = rowb.state_name :=
        congrArg (fun k => k.1) (hka.trans hkb.symm)
      rw [← h1, ← h2, hst]
  · intro st records hmem cty data hgroup hnone row hrow hand
    rcases List.mem_flatMap.mp hrow with ⟨p, hp, hrowp⟩
    have hfacts := mem_stateRows hrowp
    have hpst : p.1 = st := hfacts.1.symm.trans hand.1
    have hpmem : (st, p.2) ∈ stateData := by
      rw [← hpst]
      exact hp
    have hrec : p.2 = records := assoc_mem_unique h hpmem hmem
    rcases hfacts with ⟨_, _, g2, hg2, hg2c, v, hv, _⟩
    rw [hrec] at hg2
    have hkey2 : g2.1 = cty := hg2c.trans hand.2
    have hmem2 : (cty, g2.2) ∈ groupByCounty records := by
      rw [← hkey2]
      exact hg2
    have hdata : g2.2 = data :=
      assoc_mem_unique (groupByCounty_keys_nodup records) hmem2 hgroup
    rw [hdata, hnone] at hv
    exact Option.noConfusion hv

theorem fetch_metric_rows_invariants_witness :
    (sampleStateData.map Prod.fst).Nodup ∧
      fetch_metric_rows sampleStateData =
        [⟨"OR", "BENTON", 2022, some ⟨1234, 0⟩, false⟩,
         ⟨"WA", "KING", 2022, some ⟨77, 0⟩, false⟩] ∧
      ((∀ row ∈ fetch_metric_rows sampleStateData, row.value ≠ none) ∧
        ((fetch_metric_rows sampleStateData).map rowKey).Nodup ∧
        ∀ st records, (st, records) ∈ sampleStateData →
          ∀ cty data, (cty, data) ∈ groupByCounty records →
            (process_county_records data).1 = none →
            ∀ row ∈ fetch_metric_rows sampleStateData,
              ¬(row.state_name = st ∧ row.county_name = cty)) :=
  ⟨by decide, by decide,
    fetch_metric_rows_invariants sampleStateData (by decide)⟩
